import Mathlib

/-!
Verification of the affine-stack parser and applier of
`src/imod/protocols/protocol_xcorr.py` (class `ProtImodXcorr`).

Shallow embedding conventions:
* Scalars are modelled as exact rationals (`ℚ`).  The Python code parses
  decimal text with `float(...)` and stores into a numpy array; every claim
  under study concerns which token lands in which matrix cell and when
  parsing fails, not floating-point rounding, so exact decimal arithmetic
  is faithful for them.  `parseFloat` below models `float(tok)` on the
  finite decimal literals produced by the external tool (optional sign,
  digits, optional fraction, optional exponent); it returns `none` where
  `float` raises `ValueError`.
* `readlines` models Python `file.readlines()` restricted to `"\n"`
  newlines (the transform files are plain text); the trailing `"\n"` kept
  by Python on each line is whitespace and is discarded by `line.split()`
  anyway, so lines are modelled without their terminators.
* `pySplit` models Python `str.split()` with no arguments: maximal runs of
  non-whitespace characters, never producing empty tokens.
* Fallible code is modelled with `Except`: `values[i]` on a too-short list
  is `LineError.indexError i` (Python `IndexError`), a failing
  `float(values[i])` is `LineError.valueError i` (Python `ValueError`).
  The spec groups both as `FormatError`; `FormatError` below records the
  offending line index and the underlying error, mirroring the point at
  which the Python exception is raised.
-/

/-- One 3×3 homogeneous matrix slice `frameMatrix[:, :, i]`.  Field `mRC`
is the cell at row `R`, column `C` of the numpy array. -/
structure Mat3 where
  m00 : ℚ
  m10 : ℚ
  m01 : ℚ
  m11 : ℚ
  m02 : ℚ
  m12 : ℚ
  m20 : ℚ
  m21 : ℚ
  m22 : ℚ
deriving DecidableEq, Repr

/-- Digit run to a natural number, most significant first. -/
def digitsToNat (l : List Char) : Nat :=
  l.foldl (fun n c => 10 * n + (c.toNat - 48)) 0

/-- Optional leading sign; `true` means negative. -/
def splitSign : List Char → Bool × List Char
  | '-' :: rest => (true, rest)
  | '+' :: rest => (false, rest)
  | cs => (false, cs)

/-- Exponent suffix after the mantissa: an empty remainder means exponent
0; `e`/`E` with an optional sign and at least one digit must consume the
rest of the token; anything else fails the parse. -/
def parseExpSuffix : List Char → Option Int
  | [] => some 0
  | c :: rest =>
    if c = 'e' ∨ c = 'E' then
      let (neg, rest2) := splitSign rest
      let (eds, rest3) := rest2.span Char.isDigit
      if eds.isEmpty ∨ ¬ rest3.isEmpty then none
      else some (if neg then -(digitsToNat eds : Int) else (digitsToNat eds : Int))
    else none

/-- Exact value of a decimal literal: sign, integer digits, fraction
digits, decimal exponent. -/
def decimalValue (neg : Bool) (intPart fracPart : List Char) (exp : Int) : ℚ :=
  let den := Nat.pow 10 fracPart.length
  let base : Int := (digitsToNat intPart * den + digitsToNat fracPart : Nat)
  let sbase : Int := if neg then -base else base
  if 0 ≤ exp then mkRat (sbase * (Nat.pow 10 exp.toNat : Nat)) den
  else mkRat sbase (den * Nat.pow 10 (-exp).toNat)

/-- Model of Python `float(tok)` on finite decimal literals (optional
sign, digits, optional `.` fraction with at least one digit around the
point, optional exponent): `some v` on success, `none` where `float`
raises `ValueError`. -/
def parseFloat (s : String) : Option ℚ :=
  let (neg, cs) := splitSign s.toList
  let (intPart, rest) := cs.span Char.isDigit
  match rest with
  | '.' :: rest2 =>
    let (fracPart, rest3) := rest2.span Char.isDigit
    if intPart.isEmpty ∧ fracPart.isEmpty then none
    else (parseExpSuffix rest3).map (decimalValue neg intPart fracPart)
  | _ =>
    if intPart.isEmpty then none
    else (parseExpSuffix rest).map (decimalValue neg intPart [])

/-- Accumulator pass for `pySplit`: `acc` holds the current token reversed. -/
def splitWsAux : List Char → List Char → List (List Char)
  | [], acc => if acc.isEmpty then [] else [acc.reverse]
  | c :: cs, acc =>
    if c.isWhitespace then
      if acc.isEmpty then splitWsAux cs []
      else acc.reverse :: splitWsAux cs []
    else splitWsAux cs (c :: acc)

/-- Model of Python `line.split()` (no separator argument): maximal runs
of non-whitespace characters; empty tokens never occur. -/
def pySplit (s : String) : List String :=
  (splitWsAux s.toList []).map fun l => String.mk l

/-- Split a character list at `'\n'`, keeping empty segments. -/
def splitNlAux : List Char → List Char → List (List Char)
  | [], acc => [acc.reverse]
  | c :: cs, acc =>
    if c = '\n' then acc.reverse :: splitNlAux cs []
    else splitNlAux cs (c :: acc)

/-- Model of Python `file.readlines()` for `"\n"`-terminated text, with
terminators dropped: the empty file has no lines, and a trailing newline
does not create an extra empty line. -/
def readlines (s : String) : List String :=
  if s = "" then []
  else
    let parts := (splitNlAux s.toList []).map fun l => String.mk l
    if parts.getLast? = some "" then parts.dropLast else parts

/-- Failure of one line of `formatTransformationMatrix`:
`indexError i` is Python `IndexError` from `values[i]`,
`valueError i` is Python `ValueError` from `float(values[i])`. -/
inductive LineError where
  | indexError : Nat → LineError
  | valueError : Nat → LineError
deriving DecidableEq, Repr

/-- `float(values[i])` for the token list of one line. -/
def parseTok (toks : List String) (i : Nat) : Except LineError ℚ :=
  match toks.get? i with
  | none => .error (.indexError i)
  | some t =>
    match parseFloat t with
    | none => .error (.valueError i)
    | some v => .ok v

/-- The body of the `for line in lines` loop of
`formatTransformationMatrix`: split the line, read `values[0] .. values[5]`
in order through `float`, and fill one 3×3 slice with the fixed bottom
row `[0, 0, 1]`. -/
def parseLine (line : String) : Except LineError Mat3 := do
  let toks := pySplit line
  let v0 ← parseTok toks 0
  let v1 ← parseTok toks 1
  let v2 ← parseTok toks 2
  let v3 ← parseTok toks 3
  let v4 ← parseTok toks 4
  let v5 ← parseTok toks 5
  return { m00 := v0, m10 := v1, m01 := v2, m11 := v3, m02 := v4, m12 := v5,
           m20 := 0, m21 := 0, m22 := 1 }

/-- Parse failure of the whole file: the index of the offending line and
the Python exception raised there. -/
structure FormatError where
  lineIdx : Nat
  err : LineError
deriving DecidableEq, Repr

/-- The line loop of `formatTransformationMatrix`, carrying the running
line counter `i`: the first raising line aborts the whole parse. -/
def parseLinesFrom (i : Nat) : List String → Except FormatError (List Mat3)
  | [] => .ok []
  | l :: ls =>
    match parseLine l with
    | .error e => .error ⟨i, e⟩
    | .ok m =>
      match parseLinesFrom (i + 1) ls with
      | .error f => .error f
      | .ok ms => .ok (m :: ms)

/-- `ProtImodXcorr.formatTransformationMatrix` on the text content of the
transform file: read all lines, then fill one 3×3 slice per line.  The
stack `frameMatrix[:, :, i]` is modelled as the list of its slices in
index order. -/
def formatTransformationMatrix (content : String) : Except FormatError (List Mat3) :=
  parseLinesFrom 0 (readlines content)

/-- One tilt image of the collaborator tilt-series: acquisition metadata
copied by `copyInfo(..., copyId=True)`, the location set by
`setLocation`, and the optional transform slot written by
`setTransform`. -/
structure TiltImage where
  ident : Nat
  tiltAngle : ℚ
  samplingRate : ℚ
  location : Nat × String
  transform : Option Mat3
deriving DecidableEq, Repr

/-- Failure of the apply loop: numpy `IndexError` from
`alignmentMatrix[:, :, index]` when `index` is out of range. -/
inductive ApplyError where
  | indexError : Nat → ApplyError
deriving DecidableEq, Repr

/-- The `for index, tiltImage in enumerate(ts)` loop of
`computeXcorrStep` (lines 155–162), carrying the running `index`: each
frame is copied with `copyInfo`/`setLocation` and its transform slot set
to slice `index` of the stack. -/
def applyFrom (stack : List Mat3) (i : Nat) : List TiltImage → Except ApplyError (List TiltImage)
  | [] => .ok []
  | ti :: rest =>
    match stack.get? i with
    | none => .error (.indexError i)
    | some m =>
      match applyFrom stack (i + 1) rest with
      | .error e => .error e
      | .ok tis => .ok ({ ti with transform := some m } :: tis)

/-- Apply a parsed transform stack to a tilt-series, as the output loop of
`computeXcorrStep` does, starting at index 0. -/
def applyTransformStack (stack : List Mat3) (ts : List TiltImage) :
    Except ApplyError (List TiltImage) :=
  applyFrom stack 0 ts

/-- `true` on the tokens of a line whose first six tokens all exist and
parse as floats, i.e. on exactly the lines `parseLine` accepts. -/
def numericTok (toks : List String) (i : Nat) : Bool :=
  match toks.get? i with
  | none => false
  | some t => (parseFloat t).isSome

/-- A line is well formed when tokens 0..5 exist and are numeric. -/
def lineWellFormed (line : String) : Bool :=
  let toks := pySplit line
  numericTok toks 0 && numericTok toks 1 && numericTok toks 2 &&
  numericTok toks 3 && numericTok toks 4 && numericTok toks 5

/-- `true` exactly on `.ok` results. -/
def exceptOk {ε α : Type} : Except ε α → Bool
  | .ok _ => true
  | .error _ => false

deriving instance DecidableEq for Except

example : parseFloat "1.0" = some 1 := by decide
example : parseFloat "-1.5" = some (mkRat (-3) 2) := by decide
example : parseFloat "0.9998" = some (mkRat 4999 5000) := by decide
example : parseFloat "abc" = none := by decide
example : pySplit "1.0 0.0  2.5" = ["1.0", "0.0", "2.5"] := by decide
example : readlines "" = [] := by decide
example : readlines "a\nb\n" = ["a", "b"] := by decide
example :
    formatTransformationMatrix "1.0 0.0 0.0 1.0 2.5 -1.5" =
      .ok [⟨1, 0, 0, 1, mkRat 5 2, mkRat (-3) 2, 0, 0, 1⟩] := by decide
example : formatTransformationMatrix "" = .ok [] := by decide

/-! ### Helper lemmas about `Except` and the line parser -/

theorem bind_ok_inv {ε α β : Type} {x : Except ε α} {f : α → Except ε β} {b : β}
    (h : x >>= f = .ok b) : ∃ a, x = .ok a ∧ f a = .ok b := by
  cases x with
  | ok a => exact ⟨a, rfl, h⟩
  | error e => exact absurd h (by simp [Bind.bind, Except.bind])

theorem except_ok_or_error {ε α : Type} (x : Except ε α) :
    (∃ a, x = .ok a) ∨ (∃ e, x = .error e) := by
  cases x with
  | ok a => exact .inl ⟨a, rfl⟩
  | error e => exact .inr ⟨e, rfl⟩

theorem parseTok_ok_iff {toks : List String} {i : Nat} :
    (∃ v, parseTok toks i = .ok v) ↔ numericTok toks i = true := by
  unfold parseTok numericTok
  cases hg : toks.get? i with
  | none => simp
  | some t =>
    cases hf : parseFloat t with
    | none => simp [hf]
    | some v => simp [hf]

theorem parseTok_ok_of_get {toks : List String} {i : Nat} {t : String} {v : ℚ}
    (hg : toks.get? i = some t) (hf : parseFloat t = some v) :
    parseTok toks i = .ok v := by
  simp only [parseTok, hg, hf]

/-- Successful lines produce exactly the record the loop body fills:
tokens 0–5 in the fixed cell order and the constant bottom row. -/
theorem parseLine_ok_of_toks {line t0 t1 t2 t3 t4 t5 : String} {rest : List String}
    {v0 v1 v2 v3 v4 v5 : ℚ}
    (htoks : pySplit line = t0 :: t1 :: t2 :: t3 :: t4 :: t5 :: rest)
    (h0 : parseFloat t0 = some v0) (h1 : parseFloat t1 = some v1)
    (h2 : parseFloat t2 = some v2) (h3 : parseFloat t3 = some v3)
    (h4 : parseFloat t4 = some v4) (h5 : parseFloat t5 = some v5) :
    parseLine line = .ok ⟨v0, v1, v2, v3, v4, v5, 0, 0, 1⟩ := by
  have p0 : parseTok (t0 :: t1 :: t2 :: t3 :: t4 :: t5 :: rest) 0 = .ok v0 :=
    parseTok_ok_of_get (show (t0 :: t1 :: t2 :: t3 :: t4 :: t5 :: rest).get? 0 = some t0 from rfl) h0
  have p1 : parseTok (t0 :: t1 :: t2 :: t3 :: t4 :: t5 :: rest) 1 = .ok v1 :=
    parseTok_ok_of_get (show (t0 :: t1 :: t2 :: t3 :: t4 :: t5 :: rest).get? 1 = some t1 from rfl) h1
  have p2 : parseTok (t0 :: t1 :: t2 :: t3 :: t4 :: t5 :: rest) 2 = .ok v2 :=
    parseTok_ok_of_get (show (t0 :: t1 :: t2 :: t3 :: t4 :: t5 :: rest).get? 2 = some t2 from rfl) h2
  have p3 : parseTok (t0 :: t1 :: t2 :: t3 :: t4 :: t5 :: rest) 3 = .ok v3 :=
    parseTok_ok_of_get (show (t0 :: t1 :: t2 :: t3 :: t4 :: t5 :: rest).get? 3 = some t3 from rfl) h3
  have p4 : parseTok (t0 :: t1 :: t2 :: t3 :: t4 :: t5 :: rest) 4 = .ok v4 :=
    parseTok_ok_of_get (show (t0 :: t1 :: t2 :: t3 :: t4 :: t5 :: rest).get? 4 = some t4 from rfl) h4
  have p5 : parseTok (t0 :: t1 :: t2 :: t3 :: t4 :: t5 :: rest) 5 = .ok v5 :=
    parseTok_ok_of_get (show (t0 :: t1 :: t2 :: t3 :: t4 :: t5 :: rest).get? 5 = some t5 from rfl) h5
  simp only [parseLine, htoks, p0, p1, p2, p3, p4, p5]
  rfl

/-- Inversion: any successful line yields a record whose six data cells
come from successful `parseTok` calls and whose bottom row is `[0,0,1]`. -/
theorem parseLine_ok_inv {line : String} {m : Mat3} (h : parseLine line = .ok m) :
    (∀ i, i < 6 → numericTok (pySplit line) i = true) ∧
    m.m20 = 0 ∧ m.m21 = 0 ∧ m.m22 = 1 := by
  simp only [parseLine] at h
  obtain ⟨v0, e0, h⟩ := bind_ok_inv h
  obtain ⟨v1, e1, h⟩ := bind_ok_inv h
  obtain ⟨v2, e2, h⟩ := bind_ok_inv h
  obtain ⟨v3, e3, h⟩ := bind_ok_inv h
  obtain ⟨v4, e4, h⟩ := bind_ok_inv h
  obtain ⟨v5, e5, h⟩ := bind_ok_inv h
  have hm : m = ⟨v0, v1, v2, v3, v4, v5, 0, 0, 1⟩ := by
    cases h; rfl
  subst hm
  refine ⟨?_, rfl, rfl, rfl⟩
  intro i hi
  interval_cases i
  · exact parseTok_ok_iff.mp ⟨v0, e0⟩
  · exact parseTok_ok_iff.mp ⟨v1, e1⟩
  · exact parseTok_ok_iff.mp ⟨v2, e2⟩
  · exact parseTok_ok_iff.mp ⟨v3, e3⟩
  · exact parseTok_ok_iff.mp ⟨v4, e4⟩
  · exact parseTok_ok_iff.mp ⟨v5, e5⟩

/-- A line parses successfully exactly when its first six tokens exist
and are numeric. -/
theorem parseLine_ok_iff {line : String} :
    (∃ m, parseLine line = .ok m) ↔ lineWellFormed line = true := by
  constructor
  · rintro ⟨m, h⟩
    have hall := (parseLine_ok_inv h).1
    unfold lineWellFormed
    simp only [Bool.and_eq_true]
    exact ⟨⟨⟨⟨⟨hall 0 (by omega), hall 1 (by omega)⟩, hall 2 (by omega)⟩,
      hall 3 (by omega)⟩, hall 4 (by omega)⟩, hall 5 (by omega)⟩
  · intro hwf
    unfold lineWellFormed at hwf
    simp only [Bool.and_eq_true] at hwf
    obtain ⟨⟨⟨⟨⟨n0, n1⟩, n2⟩, n3⟩, n4⟩, n5⟩ := hwf
    obtain ⟨w0, e0⟩ := parseTok_ok_iff.mpr n0
    obtain ⟨w1, e1⟩ := parseTok_ok_iff.mpr n1
    obtain ⟨w2, e2⟩ := parseTok_ok_iff.mpr n2
    obtain ⟨w3, e3⟩ := parseTok_ok_iff.mpr n3
    obtain ⟨w4, e4⟩ := parseTok_ok_iff.mpr n4
    obtain ⟨w5, e5⟩ := parseTok_ok_iff.mpr n5
    refine ⟨⟨w0, w1, w2, w3, w4, w5, 0, 0, 1⟩, ?_⟩
    simp only [parseLine, e0, e1, e2, e3, e4, e5]
    rfl

theorem parseLine_error_iff {line : String} :
    (∃ e, parseLine line = .error e) ↔ lineWellFormed line = false := by
  rcases except_ok_or_error (parseLine line) with ⟨m, hm⟩ | ⟨e, he⟩
  · constructor
    · rintro ⟨e, he⟩
      rw [hm] at he
      exact absurd he (by simp)
    · intro hwf
      have := parseLine_ok_iff.mp ⟨m, hm⟩
      rw [this] at hwf
      exact absurd hwf (by simp)
  · constructor
    · rintro -
      cases hwf : lineWellFormed line with
      | false => rfl
      | true =>
        obtain ⟨m, hm⟩ := parseLine_ok_iff.mpr hwf
        rw [hm] at he
        exact absurd he (by simp)
    · intro _
      exact ⟨e, he⟩

/-! ### Helper lemmas about the file loop -/

theorem parseLinesFrom_ok_length {ls : List String} {ms : List Mat3} :
    ∀ {i : Nat}, parseLinesFrom i ls = .ok ms → ms.length = ls.length := by
  induction ls generalizing ms with
  | nil => intro i h; cases h; rfl
  | cons l ls ih =>
    intro i h
    unfold parseLinesFrom at h
    cases hl : parseLine l with
    | error e => rw [hl] at h; exact absurd h (by simp)
    | ok m =>
      rw [hl] at h
      cases hr : parseLinesFrom (i + 1) ls with
      | error f => rw [hr] at h; exact absurd h (by simp)
      | ok ms' =>
        rw [hr] at h
        cases h
        simp [ih hr]

theorem parseLinesFrom_ok_get {ls : List String} {ms : List Mat3} :
    ∀ {i : Nat}, parseLinesFrom i ls = .ok ms →
    ∀ j line, ls.get? j = some line → ∃ m, ms.get? j = some m ∧ parseLine line = .ok m := by
  induction ls generalizing ms with
  | nil => intro i h j line hj; exact absurd hj (by simp)
  | cons l ls ih =>
    intro i h j line hj
    unfold parseLinesFrom at h
    cases hl : parseLine l with
    | error e => rw [hl] at h; exact absurd h (by simp)
    | ok m =>
      rw [hl] at h
      cases hr : parseLinesFrom (i + 1) ls with
      | error f => rw [hr] at h; exact absurd h (by simp)
      | ok ms' =>
        rw [hr] at h
        cases h
        cases j with
        | zero =>
          cases hj
          exact ⟨m, rfl, hl⟩
        | succ j' =>
          obtain ⟨m', hm', hp⟩ := ih hr j' line hj
          exact ⟨m', by simpa using hm', hp⟩

theorem parseLinesFrom_error_iff {ls : List String} :
    ∀ {i : Nat}, (∃ f, parseLinesFrom i ls = .error f) ↔
      ∃ line ∈ ls, lineWellFormed line = false := by
  induction ls with
  | nil =>
    intro i
    constructor
    · rintro ⟨f, hf⟩; exact absurd hf (by simp [parseLinesFrom])
    · rintro ⟨line, hmem, -⟩; exact absurd hmem (by simp)
  | cons l ls ih =>
    intro i
    constructor
    · rintro ⟨f, hf⟩
      unfold parseLinesFrom at hf
      cases hl : parseLine l with
      | error e =>
        exact ⟨l, by simp, parseLine_error_iff.mp ⟨e, hl⟩⟩
      | ok m =>
        rw [hl] at hf
        cases hr : parseLinesFrom (i + 1) ls with
        | error f' =>
          obtain ⟨line, hmem, hwf⟩ := ih.mp ⟨f', hr⟩
          exact ⟨line, by simp [hmem], hwf⟩
        | ok ms => rw [hr] at hf; exact absurd hf (by simp)
    · rintro ⟨line, hmem, hwf⟩
      rcases List.mem_cons.mp hmem with rfl | hmem'
      · obtain ⟨e, he⟩ := parseLine_error_iff.mpr hwf
        exact ⟨⟨i, e⟩, by unfold parseLinesFrom; rw [he]⟩
      · rcases except_ok_or_error (parseLine l) with ⟨m, hm⟩ | ⟨e, he⟩
        · obtain ⟨f, hf⟩ := (@ih (i + 1)).mpr ⟨line, hmem', hwf⟩
          exact ⟨f, by unfold parseLinesFrom; rw [hm, hf]⟩
        · exact ⟨⟨i, e⟩, by unfold parseLinesFrom; rw [he]⟩

theorem parseLinesFrom_error_first {ls : List String} :
    ∀ {i j : Nat} {e : LineError}, parseLinesFrom i ls = .error ⟨j, e⟩ →
      i ≤ j ∧
      (∃ line, ls.get? (j - i) = some line ∧ parseLine line = .error e) ∧
      ∀ k, k < j - i → ∃ l m, ls.get? k = some l ∧ parseLine l = .ok m := by
  induction ls with
  | nil => intro i j e h; exact absurd h (by simp [parseLinesFrom])
  | cons l ls ih =>
    intro i j e h
    unfold parseLinesFrom at h
    cases hl : parseLine l with
    | error e' =>
      rw [hl] at h
      have hje : j = i ∧ e = e' := by
        have := h
        simp only [Except.error.injEq, FormatError.mk.injEq] at this
        exact ⟨this.1.symm, this.2.symm⟩
      obtain ⟨rfl, rfl⟩ := hje
      refine ⟨le_refl _, ⟨l, ?_, hl⟩, ?_⟩
      · simp [Nat.sub_self]
      · intro k hk
        simp [Nat.sub_self] at hk
    | ok m =>
      rw [hl] at h
      cases hr : parseLinesFrom (i + 1) ls with
      | ok ms => rw [hr] at h; exact absurd h (by simp)
      | error f =>
        rw [hr] at h
        cases h
        obtain ⟨hij, ⟨line, hline, hperr⟩, hbefore⟩ := ih hr
        have hij' : i ≤ j := by omega
        have hsub : j - i = (j - (i + 1)) + 1 := by omega
        refine ⟨hij', ⟨line, ?_, hperr⟩, ?_⟩
        · rw [hsub]; simpa using hline
        · intro k hk
          cases k with
          | zero => exact ⟨l, m, rfl, hl⟩
          | succ k' =>
            obtain ⟨l', m', hl', hm'⟩ := hbefore k' (by omega)
            exact ⟨l', m', by simpa using hl', hm'⟩

theorem parseLinesFrom_ok_mem {ls : List String} {ms : List Mat3} :
    ∀ {i : Nat}, parseLinesFrom i ls = .ok ms →
    ∀ m, m ∈ ms → ∃ line ∈ ls, parseLine line = .ok m := by
  induction ls generalizing ms with
  | nil => intro i h m hm; cases h; exact absurd hm (by simp)
  | cons l ls ih =>
    intro i h m hm
    unfold parseLinesFrom at h
    cases hl : parseLine l with
    | error e => rw [hl] at h; exact absurd h (by simp)
    | ok m0 =>
      rw [hl] at h
      cases hr : parseLinesFrom (i + 1) ls with
      | error f => rw [hr] at h; exact absurd h (by simp)
      | ok ms' =>
        rw [hr] at h
        cases h
        rcases List.mem_cons.mp hm with rfl | hm'
        · exact ⟨l, by simp, hl⟩
        · obtain ⟨line, hmem, hp⟩ := ih hr m hm'
          exact ⟨line, by simp [hmem], hp⟩

/-! ### Helper lemmas about the apply loop -/

theorem applyFrom_ok {stack : List Mat3} {ts : List TiltImage} :
    ∀ {i : Nat}, i + ts.length ≤ stack.length →
    ∃ out, applyFrom stack i ts = .ok out ∧ out.length = ts.length ∧
      ∀ j ti, ts.get? j = some ti →
        ∃ m, stack.get? (i + j) = some m ∧
          out.get? j = some { ti with transform := some m } := by
  induction ts with
  | nil =>
    intro i _
    exact ⟨[], rfl, rfl, fun j ti hj => absurd hj (by simp)⟩
  | cons ti ts ih =>
    intro i hle
    have hi : i < stack.length := by simp at hle; omega
    have hm : stack.get? i = some (stack.get ⟨i, hi⟩) := List.get?_eq_get hi
    set m := stack.get ⟨i, hi⟩ with hmdef
    have hrec : (i + 1) + ts.length ≤ stack.length := by simp at hle ⊢; omega
    obtain ⟨out, hout, hlen, hget⟩ := ih hrec
    refine ⟨{ ti with transform := some m } :: out, ?_, by simp [hlen], ?_⟩
    · unfold applyFrom
      rw [hm, hout]
    · intro j ti' hj
      cases j with
      | zero =>
        cases hj
        exact ⟨m, by simpa using hm, rfl⟩
      | succ j' =>
        obtain ⟨m', hm', ho'⟩ := hget j' ti' (by simpa using hj)
        refine ⟨m', ?_, by simpa using ho'⟩
        rw [show i + (j' + 1) = (i + 1) + j' by omega]
        exact hm'

theorem applyFrom_error {stack : List Mat3} {ts : List TiltImage} :
    ∀ {i : Nat}, i ≤ stack.length → stack.length < i + ts.length →
    applyFrom stack i ts = .error (.indexError stack.length) := by
  induction ts with
  | nil => intro i h1 h2; simp at h2; omega
  | cons ti ts ih =>
    intro i h1 h2
    unfold applyFrom
    cases hm : stack.get? i with
    | none =>
      have : stack.length ≤ i := by
        by_contra hlt
        push_neg at hlt
        rw [List.get?_eq_get hlt] at hm
        exact absurd hm (by simp)
      have hieq : i = stack.length := le_antisymm h1 this
      rw [hieq]
    | some m =>
      have hi : i < stack.length := by
        by_contra hge
        push_neg at hge
        rw [List.get?_eq_none.mpr hge] at hm
        exact absurd hm (by simp)
      rw [ih (by omega) (by simp at h2 ⊢; omega)]

theorem applyFrom_idem {stack : List Mat3} {ts out : List TiltImage} :
    ∀ {i : Nat}, applyFrom stack i ts = .ok out → applyFrom stack i out = .ok out := by
  induction ts generalizing out with
  | nil => intro i h; cases h; rfl
  | cons ti ts ih =>
    intro i h
    unfold applyFrom at h
    cases hm : stack.get? i with
    | none => rw [hm] at h; exact absurd h (by simp)
    | some m =>
      rw [hm] at h
      cases hr : applyFrom stack (i + 1) ts with
      | error e => rw [hr] at h; exact absurd h (by simp)
      | ok tis =>
        rw [hr] at h
        cases h
        unfold applyFrom
        rw [hm, ih hr]

/-! ### Claim theorems -/

/-- C1: every line whose six tokens parse as numbers yields the 3×3 matrix
with `matrix[0][0] = v0`, `matrix[1][0] = v1`, `matrix[0][1] = v2`,
`matrix[1][1] = v3`, `matrix[0][2] = v4`, `matrix[1][2] = v5` and bottom
row `[0, 0, 1]`; a single-line file containing the 6-tuple parses to
exactly that one-matrix stack; and the two-line concrete scenario of
spec §8 parses to a stack of 2 whose first matrix is
`[[1.0, 0.0, 2.5], [0.0, 1.0, -1.5], [0, 0, 1]]`. -/
theorem C1_parser_field_mapping
    (line t0 t1 t2 t3 t4 t5 : String) (v0 v1 v2 v3 v4 v5 : ℚ)
    (htoks : pySplit line = [t0, t1, t2, t3, t4, t5])
    (h0 : parseFloat t0 = some v0) (h1 : parseFloat t1 = some v1)
    (h2 : parseFloat t2 = some v2) (h3 : parseFloat t3 = some v3)
    (h4 : parseFloat t4 = some v4) (h5 : parseFloat t5 = some v5)
    (hsingle : readlines line = [line]) :
    parseLine line = .ok ⟨v0, v1, v2, v3, v4, v5, 0, 0, 1⟩ ∧
    formatTransformationMatrix line = .ok [⟨v0, v1, v2, v3, v4, v5, 0, 0, 1⟩] ∧
    formatTransformationMatrix
        "1.0 0.0 0.0 1.0 2.5 -1.5\n0.9998 0.0175 -0.0175 0.9998 0.0 0.0" =
      .ok [⟨1, 0, 0, 1, mkRat 5 2, mkRat (-3) 2, 0, 0, 1⟩,
           ⟨mkRat 4999 5000, mkRat 7 400, mkRat (-7) 400, mkRat 4999 5000,
            0, 0, 0, 0, 1⟩] := by
  have hp : parseLine line = .ok ⟨v0, v1, v2, v3, v4, v5, 0, 0, 1⟩ :=
    parseLine_ok_of_toks htoks h0 h1 h2 h3 h4 h5
  refine ⟨hp, ?_, by decide⟩
  unfold formatTransformationMatrix
  rw [hsingle]
  unfold parseLinesFrom
  rw [hp]
  rfl

theorem C1_parser_field_mapping_witness :
    parseLine "1.5 2 3 4 5 6" = .ok ⟨mkRat 3 2, 2, 3, 4, 5, 6, 0, 0, 1⟩ :=
  (C1_parser_field_mapping "1.5 2 3 4 5 6" "1.5" "2" "3" "4" "5" "6"
    (mkRat 3 2) 2 3 4 5 6 (by decide) (by decide) (by decide) (by decide)
    (by decide) (by decide) (by decide) (by decide)).1

/-- C2 counterexample: applying a stack of length 2 to a tilt-series of
length 1 succeeds (the extra entry is silently ignored); no
length-mismatch check exists in the code, contradicting the claimed
`LengthMismatchError` for every `M ≠ N`. -/
theorem C2_mismatch_cex :
    applyTransformStack
      [⟨1, 0, 0, 1, 0, 0, 0, 0, 1⟩, ⟨1, 0, 0, 1, 0, 0, 0, 0, 1⟩]
      [⟨1, 0, 1, (1, "a.st"), none⟩] =
    .ok [⟨1, 0, 1, (1, "a.st"), some ⟨1, 0, 0, 1, 0, 0, 0, 0, 1⟩⟩] := by decide

/-- C2 (amended): the apply loop performs no length check.  When the
stack is at least as long as the tilt-series, application succeeds using
only the first `M` entries (extras silently ignored); when the stack is
shorter, it fails with an index error at frame index `N = stack.length`,
i.e. only after frames `0 .. N-1` have already been produced. -/
theorem C2_no_length_check (stack : List Mat3) (ts : List TiltImage) :
    (ts.length ≤ stack.length → exceptOk (applyTransformStack stack ts) = true) ∧
    (stack.length < ts.length →
      applyTransformStack stack ts = .error (.indexError stack.length)) := by
  constructor
  · intro hle
    obtain ⟨out, hout, -, -⟩ := @applyFrom_ok stack ts 0 (by omega)
    unfold applyTransformStack
    rw [hout]
    rfl
  · intro hlt
    exact applyFrom_error (Nat.zero_le _) (by omega)

theorem C2_no_length_check_witness :
    exceptOk (applyTransformStack
      [⟨1, 0, 0, 1, 0, 0, 0, 0, 1⟩, ⟨1, 0, 0, 1, 0, 0, 0, 0, 1⟩]
      [⟨1, 0, 1, (1, "a.st"), none⟩]) = true ∧
    applyTransformStack [⟨1, 0, 0, 1, 0, 0, 0, 0, 1⟩]
      [⟨1, 0, 1, (1, "a.st"), none⟩, ⟨2, 0, 1, (2, "a.st"), none⟩] =
      .error (.indexError 1) :=
  ⟨(C2_no_length_check
      [⟨1, 0, 0, 1, 0, 0, 0, 0, 1⟩, ⟨1, 0, 0, 1, 0, 0, 0, 0, 1⟩]
      [⟨1, 0, 1, (1, "a.st"), none⟩]).1 (by decide),
   (C2_no_length_check [⟨1, 0, 0, 1, 0, 0, 0, 0, 1⟩]
      [⟨1, 0, 1, (1, "a.st"), none⟩, ⟨2, 0, 1, (2, "a.st"), none⟩]).2 (by decide)⟩

/-- C3 counterexample: the empty file does not raise; the loop body never
runs and an empty stack is returned, contradicting the claimed
`FormatError` on empty input. -/
theorem C3_empty_file_cex : formatTransformationMatrix "" = .ok [] := by decide

/-- C3 (amended): parsing fails exactly when some line lacks one of its
first six tokens or has a non-numeric one among them; the recorded error
is raised at the first offending line, every earlier line having parsed
successfully, and no stack is returned on failure.  A 5-field line raises
the index error, a non-numeric token raises the value error, but the
empty file returns an empty stack instead of failing. -/
theorem C3_failfast (content : String) :
    ((∃ f, formatTransformationMatrix content = .error f) ↔
      ∃ line ∈ readlines content, lineWellFormed line = false) ∧
    (∀ j e, formatTransformationMatrix content = .error ⟨j, e⟩ →
      (∃ line, (readlines content).get? j = some line ∧ parseLine line = .error e) ∧
      ∀ k, k < j → ∃ l' m, (readlines content).get? k = some l' ∧ parseLine l' = .ok m) ∧
    parseLine "1.0 0.0 0.0 1.0 2.5" = .error (.indexError 5) ∧
    parseLine "1.0 abc 0.0 1.0 2.5 3.0" = .error (.valueError 1) ∧
    formatTransformationMatrix "" = .ok [] := by
  refine ⟨parseLinesFrom_error_iff, ?_, by decide, by decide, by decide⟩
  intro j e h
  obtain ⟨-, ⟨line, hline, herr⟩, hbefore⟩ := parseLinesFrom_error_first h
  rw [Nat.sub_zero] at hline
  refine ⟨⟨line, hline, herr⟩, ?_⟩
  intro k hk
  exact hbefore k (by omega)

theorem C3_failfast_witness :
    ∃ f, formatTransformationMatrix "1.0 0.0" = .error f :=
  (C3_failfast "1.0 0.0").1.mpr ⟨"1.0 0.0", by decide, by decide⟩

/-- C4: a successfully parsed file of `N` lines yields a stack of exactly
`N` matrices, entry `j` being the parse of line `j`, in file order, with
no truncation or padding. -/
theorem C4_length_invariant (content : String) (stack : List Mat3)
    (h : formatTransformationMatrix content = .ok stack) :
    stack.length = (readlines content).length ∧
    ∀ j line, (readlines content).get? j = some line →
      ∃ m, stack.get? j = some m ∧ parseLine line = .ok m :=
  ⟨parseLinesFrom_ok_length h, fun j line hj => parseLinesFrom_ok_get h j line hj⟩

theorem C4_length_invariant_witness :
    ([⟨1, 2, 3, 4, 5, 6, 0, 0, 1⟩, ⟨7, 8, 9, 10, 11, 12, 0, 0, 1⟩] : List Mat3).length =
      (readlines "1 2 3 4 5 6\n7 8 9 10 11 12").length :=
  (C4_length_invariant "1 2 3 4 5 6\n7 8 9 10 11 12"
    [⟨1, 2, 3, 4, 5, 6, 0, 0, 1⟩, ⟨7, 8, 9, 10, 11, 12, 0, 0, 1⟩] (by decide)).1

/-- C5: applying a stack of matching length always succeeds and maps each
frame `j` to a record equal to the source frame except that its transform
slot holds stack entry `j`; output order matches input order and the
output has the same length. -/
theorem C5_applier_pointwise (stack : List Mat3) (ts : List TiltImage)
    (hlen : stack.length = ts.length) :
    ∃ out, applyTransformStack stack ts = .ok out ∧ out.length = ts.length ∧
      ∀ j ti m, ts.get? j = some ti → stack.get? j = some m →
        out.get? j = some { ti with transform := some m } := by
  obtain ⟨out, hout, hlen', hget⟩ :=
    @applyFrom_ok stack ts 0 (by omega)
  refine ⟨out, hout, hlen', ?_⟩
  intro j ti m hj hm
  obtain ⟨m', hm', ho⟩ := hget j ti hj
  rw [Nat.zero_add, hm] at hm'
  injection hm' with hmm
  rw [← hmm] at ho
  exact ho

theorem C5_applier_pointwise_witness :
    ∃ out, applyTransformStack [⟨1, 0, 0, 1, mkRat 5 2, mkRat (-3) 2, 0, 0, 1⟩]
        [⟨7, mkRat 1 2, 1, (1, "ts1.st"), none⟩] = .ok out ∧
      out.length = ([⟨7, mkRat 1 2, 1, (1, "ts1.st"), none⟩] : List TiltImage).length ∧
      ∀ j ti m, ([⟨7, mkRat 1 2, 1, (1, "ts1.st"), none⟩] : List TiltImage).get? j = some ti →
        ([⟨1, 0, 0, 1, mkRat 5 2, mkRat (-3) 2, 0, 0, 1⟩] : List Mat3).get? j = some m →
          out.get? j = some { ti with transform := some m } :=
  C5_applier_pointwise [⟨1, 0, 0, 1, mkRat 5 2, mkRat (-3) 2, 0, 0, 1⟩]
    [⟨7, mkRat 1 2, 1, (1, "ts1.st"), none⟩] (by decide)

/-- C6: every matrix of every successfully parsed stack carries the
constant bottom row `[0, 0, 1]` written by the loop body — the transform
is affine, never projective. -/
theorem C6_affine_bottom_row (content : String) (stack : List Mat3) (m : Mat3)
    (h : formatTransformationMatrix content = .ok stack) (hm : m ∈ stack) :
    m.m20 = 0 ∧ m.m21 = 0 ∧ m.m22 = 1 := by
  obtain ⟨line, -, hp⟩ := parseLinesFrom_ok_mem h m hm
  exact (parseLine_ok_inv hp).2

theorem C6_affine_bottom_row_witness :
    (⟨1, 2, 3, 4, 5, 6, 0, 0, 1⟩ : Mat3).m20 = 0 ∧
    (⟨1, 2, 3, 4, 5, 6, 0, 0, 1⟩ : Mat3).m21 = 0 ∧
    (⟨1, 2, 3, 4, 5, 6, 0, 0, 1⟩ : Mat3).m22 = 1 :=
  C6_affine_bottom_row "1 2 3 4 5 6" [⟨1, 2, 3, 4, 5, 6, 0, 0, 1⟩]
    ⟨1, 2, 3, 4, 5, 6, 0, 0, 1⟩ (by decide) (by decide)

/-- C7: the applier is a pure function of its inputs, so a second
application of the same stack to the same source series yields the very
same output; moreover applying the stack to that output reproduces it
unchanged (the transform slots are simply overwritten with equal
values). -/
theorem C7_idempotent (stack : List Mat3) (ts out : List TiltImage)
    (h : applyTransformStack stack ts = .ok out) :
    applyTransformStack stack ts = .ok out ∧
    applyTransformStack stack out = .ok out :=
  ⟨h, applyFrom_idem h⟩

theorem C7_idempotent_witness :
    applyTransformStack [⟨1, 0, 0, 1, 0, 0, 0, 0, 1⟩] [⟨1, 0, 1, (1, "a.st"), none⟩] =
      .ok [⟨1, 0, 1, (1, "a.st"), some ⟨1, 0, 0, 1, 0, 0, 0, 0, 1⟩⟩] ∧
    applyTransformStack [⟨1, 0, 0, 1, 0, 0, 0, 0, 1⟩]
        [⟨1, 0, 1, (1, "a.st"), some ⟨1, 0, 0, 1, 0, 0, 0, 0, 1⟩⟩] =
      .ok [⟨1, 0, 1, (1, "a.st"), some ⟨1, 0, 0, 1, 0, 0, 0, 0, 1⟩⟩] :=
  C7_idempotent [⟨1, 0, 0, 1, 0, 0, 0, 0, 1⟩] [⟨1, 0, 1, (1, "a.st"), none⟩]
    [⟨1, 0, 1, (1, "a.st"), some ⟨1, 0, 0, 1, 0, 0, 0, 0, 1⟩⟩] (by decide)

/-- C8: a line with more than six whitespace-separated tokens whose first
six are numeric parses successfully, the resulting matrix determined by
the first six tokens only; the extra tokens are silently ignored. -/
theorem C8_extra_tokens_ignored
    (line t0 t1 t2 t3 t4 t5 : String) (rest : List String)
    (v0 v1 v2 v3 v4 v5 : ℚ)
    (htoks : pySplit line = t0 :: t1 :: t2 :: t3 :: t4 :: t5 :: rest)
    (hextra : rest ≠ [])
    (h0 : parseFloat t0 = some v0) (h1 : parseFloat t1 = some v1)
    (h2 : parseFloat t2 = some v2) (h3 : parseFloat t3 = some v3)
    (h4 : parseFloat t4 = some v4) (h5 : parseFloat t5 = some v5) :
    parseLine line = .ok ⟨v0, v1, v2, v3, v4, v5, 0, 0, 1⟩ ∧
    6 < (pySplit line).length := by
  refine ⟨parseLine_ok_of_toks htoks h0 h1 h2 h3 h4 h5, ?_⟩
  rw [htoks]
  simp only [List.length_cons]
  have : 0 < rest.length := List.length_pos.mpr hextra
  omega

theorem C8_extra_tokens_ignored_witness :
    parseLine "1 2 3 4 5 6 7" = .ok ⟨1, 2, 3, 4, 5, 6, 0, 0, 1⟩ ∧
    6 < (pySplit "1 2 3 4 5 6 7").length :=
  C8_extra_tokens_ignored "1 2 3 4 5 6 7" "1" "2" "3" "4" "5" "6" ["7"]
    1 2 3 4 5 6 (by decide) (by decide) (by decide) (by decide) (by decide)
    (by decide) (by decide) (by decide)

/-- C9: blank lines are not skipped: a line with no tokens fails at its
first token read (`values[0]`, an index error at token 0), and any file
containing such a line fails to parse instead of continuing with the
remaining lines. -/
theorem C9_blank_line_fails (content : String) (j : Nat) (line : String)
    (hline : (readlines content).get? j = some line)
    (hblank : pySplit line = []) :
    parseLine line = .error (.indexError 0) ∧
    ∃ f, formatTransformationMatrix content = .error f := by
  have hperr : parseLine line = .error (.indexError 0) := by
    simp only [parseLine, hblank]
    rfl
  refine ⟨hperr, ?_⟩
  apply parseLinesFrom_error_iff.mpr
  exact ⟨line, List.get?_mem hline, parseLine_error_iff.mp ⟨_, hperr⟩⟩

theorem C9_blank_line_fails_witness :
    parseLine "" = .error (.indexError 0) ∧
    ∃ f, formatTransformationMatrix "1 2 3 4 5 6\n\n" = .error f :=
  C9_blank_line_fails "1 2 3 4 5 6\n\n" 1 "" (by decide) (by decide)

/-- C10: the parser is deterministic — it is a pure function of the file
content alone, so two invocations on equal content return equal stacks
(element-wise, since list equality is element-wise). -/
theorem C10_parser_deterministic (c1 c2 : String) (h : c1 = c2) :
    formatTransformationMatrix c1 = formatTransformationMatrix c2 := by
  rw [h]

theorem C10_parser_deterministic_witness :
    formatTransformationMatrix "1 2 3 4 5 6" = formatTransformationMatrix "1 2 3 4 5 6" :=
  C10_parser_deterministic "1 2 3 4 5 6" "1 2 3 4 5 6" rfl
